import Mathlib

/-!
Shallow embedding of the portfolio generator's layout engine
(`src/lib/PortfolioGenerator.js`).

Geometry is modelled over `ℚ` (the JS code computes with IEEE doubles; all
geometric identities below are exact rational facts about the same formulas).
Filenames and content tokens are modelled as `List Char` so that string
predicates (suffix tests, lower-casing) are kernel-computable.  Heights
returned by the external document writer's `heightOfString` are abstract
rational parameters.
-/

/-- Filenames / content tokens, as character lists. -/
abbrev Name := List Char

/-- A placement rectangle in document points (x, y, width, height). -/
structure Rect where
  x : ℚ
  y : ℚ
  w : ℚ
  h : ℚ
  deriving Repr, DecidableEq

/-- The aspect-fit computation of `addImageToPage` (PortfolioGenerator.js
lines 584–596): width-constrained scale first, height-constrained if the
resulting height overflows the box, then centering in the box. -/
def fitImage (imgW imgH x y maxWidth maxHeight : ℚ) : Rect :=
  let aspectRatio := imgW / imgH
  let height0 := maxWidth / aspectRatio
  let width := if height0 > maxHeight then maxHeight * aspectRatio else maxWidth
  let height := if height0 > maxHeight then maxHeight else height0
  let centerX := x + (maxWidth - width) / 2
  let centerY := y + (maxHeight - height) / 2
  ⟨centerX, centerY, width, height⟩

/-- An image record as produced by `processProjectImages` (lines 99–106). -/
structure ImageRecord where
  name : Name
  width : ℚ
  height : ℚ
  format : Name
  border : Bool
  deriving Repr, DecidableEq

/-- `Math.ceil(Math.sqrt n)` for a natural number `n` (line 558). -/
def ceilSqrt (n : ℕ) : ℕ :=
  if Nat.sqrt n * Nat.sqrt n = n then Nat.sqrt n else Nat.sqrt n + 1

/-- `cols` of the gallery grid (line 558). -/
def galleryCols (n : ℕ) : ℕ := ceilSqrt n

/-- `rows = Math.ceil(n / cols)` of the gallery grid (line 559). -/
def galleryRows (n : ℕ) : ℕ := (n + galleryCols n - 1) / galleryCols n

/-- The cell rectangle assigned to image index `i` in the ≥3-image grid branch
of `createGalleryPage` (lines 557–570): `col = i % cols`, `row = i / cols`,
`x = margin + col*(w+20)`, `y = margin + row*(h+20)`. -/
def gridRect (margin availableWidth availableHeight : ℚ) (n i : ℕ) : Rect :=
  let cols := galleryCols n
  let rows := galleryRows n
  let imageWidth := (availableWidth - 20 * ((cols : ℚ) - 1)) / cols
  let imageHeight := (availableHeight - 20 * ((rows : ℚ) - 1)) / rows
  ⟨margin + (i % cols : ℕ) * (imageWidth + 20),
   margin + (i / cols : ℕ) * (imageHeight + 20),
   imageWidth, imageHeight⟩

/-- `createGalleryPage` (lines 540–572), as the list of (image, target box)
pairs handed to `addImageToPage`: 1 image fills the content area, 2 images
are stacked vertically, otherwise the square-ish grid. -/
def createGalleryPage (margin availableWidth availableHeight : ℚ)
    (images : List ImageRecord) : List (ImageRecord × Rect) :=
  match images with
  | [a] => [(a, ⟨margin, margin, availableWidth, availableHeight⟩)]
  | [a, b] =>
      let imageHeight := (availableHeight - 20) / 2
      [(a, ⟨margin, margin, availableWidth, imageHeight⟩),
       (b, ⟨margin, margin + imageHeight + 20, availableWidth, imageHeight⟩)]
  | l => l.enum.map fun p => (p.2, gridRect margin availableWidth availableHeight l.length p.1)

/-- Two rectangles do not overlap: they are separated on some axis. -/
def RectDisjoint (r s : Rect) : Prop :=
  r.x + r.w ≤ s.x ∨ s.x + s.w ≤ r.x ∨ r.y + r.h ≤ s.y ∨ s.y + s.h ≤ r.y

instance (r s : Rect) : Decidable (RectDisjoint r s) := by
  unfold RectDisjoint; infer_instance

/-- The global `imageBorder` policy of `config.json` (used at lines 636–641). -/
structure BorderConfig where
  enabled : Bool
  width : Option ℚ
  color : Option Name
  deriving Repr, DecidableEq

/-- The portfolio configuration fields the layout engine reads. -/
structure Config where
  margin : Option ℚ
  dpi : Option ℚ
  imageBorder : Option BorderConfig
  deriving Repr, DecidableEq

/-- JS `v || d` for a numeric config field: `undefined` and `0` are falsy and
fall back to the default; every other number (negatives included) is truthy
and used as-is. -/
def jsNumOr (v : Option ℚ) (d : ℚ) : ℚ :=
  match v with
  | none => d
  | some x => if x = 0 then d else x

/-- `this.config.margin || 30` (lines 123–126, 161, 266, 317, 335, 419, 541,
575): the margin actually used by document construction and page rendering. -/
def configMargin (cfg : Config) : ℚ := jsNumOr cfg.margin 30

/-- `this.config.dpi || 300` (lines 117, 599): the DPI actually used for
raster-resolution selection. -/
def configDpi (cfg : Config) : ℚ := jsNumOr cfg.dpi 300

/-- The four page margins passed to the document writer by `createPDF`
(lines 122–127). -/
def createPDFMargins (cfg : Config) : ℚ × ℚ × ℚ × ℚ :=
  (configMargin cfg, configMargin cfg, configMargin cfg, configMargin cfg)

/-- The target raster pixel width of `addImageToPage` (line 600), before
rounding: placement width in points × dpi/72. -/
def targetPixelWidth (cfg : Config) (width : ℚ) : ℚ :=
  width * configDpi cfg / 72

/-- `image.border || (borderConfig && borderConfig.enabled)` (line 637). -/
def shouldDrawBorder (imageBorder : Bool) (cfg : Option BorderConfig) : Bool :=
  imageBorder || (match cfg with | none => false | some b => b.enabled)

/-- Draw instructions issued to the external document writer for one image. -/
inductive DrawOp where
  | image (r : Rect)
  | borderRect (r : Rect)
  deriving Repr, DecidableEq

/-- `addImageToPage` (lines 582–657) as the draw instructions it issues: the
fitted image itself, then a stroked border rectangle around the placement box
exactly when `shouldDrawBorder` holds. -/
def addImageToPage (cfg : Config) (image : ImageRecord) (x y maxWidth maxHeight : ℚ) :
    List DrawOp :=
  let r := fitImage image.width image.height x y maxWidth maxHeight
  [DrawOp.image r] ++
    (if shouldDrawBorder image.border cfg.imageBorder then [DrawOp.borderRect r] else [])

/-- `createFullPage` (lines 574–580). -/
def createFullPage (cfg : Config) (pageWidth pageHeight : ℚ) (image : ImageRecord) :
    List DrawOp :=
  let margin := configMargin cfg
  addImageToPage cfg image margin margin (pageWidth - margin * 2) (pageHeight - margin * 2)

/-- The `'full'` branch of `createProjectPage` (lines 256–261): resolve the
first content token against the project's processed images; if unresolved,
emit nothing (the surrounding `switch` simply falls through, no error). -/
def createProjectPageFull (cfg : Config) (pageWidth pageHeight : ℚ)
    (processedImages : List ImageRecord) (content : List Name) : List DrawOp :=
  let fullImage :=
    match content with
    | [] => none
    | t :: _ => processedImages.find? fun img => decide (img.name = t)
  match fullImage with
  | some image => createFullPage cfg pageWidth pageHeight image
  | none => []

/-- A declared image reference in `project.json`: a bare filename string, or
an object with `name` (or legacy `file`) and optional `border` fields. -/
inductive ImageRef where
  | str (name : Name)
  | obj (name : Option Name) (file : Option Name) (border : Option Bool)
  deriving Repr, DecidableEq

/-- JS `a || b` on optional string fields: a present *nonempty* string is
truthy; an absent or empty `a` falls through to `b` (whatever it is). -/
def jsStrOr (a b : Option Name) : Option Name :=
  match a with
  | some s => if s = [] then b else some s
  | none => b

/-- `imageName` of `processProjectImages` (lines 83–89): `imageItem` itself
for strings, `imageItem.name || imageItem.file` for objects.  `none` models
JS `undefined`; `path.join(project.path, undefined)` (line 91, outside the
per-image try) then throws, aborting the whole project load. -/
def refName : ImageRef → Option Name
  | .str s => some s
  | .obj n f _ => jsStrOr n f

/-- `imageConfig.border || false` (line 105): `{}` for a bare string. -/
def refBorder : ImageRef → Bool
  | .str _ => false
  | .obj _ _ b => b.getD false

/-- Metadata returned by the external image-probe service (`sharp.metadata`). -/
structure ImageMeta where
  width : ℚ
  height : ℚ
  format : Name
  deriving Repr, DecidableEq

/-- `processProjectImages` (lines 77–113): normalize each reference, probe the
file, keep a record on success and drop the reference (with a warning) on
failure.  The filesystem access plus metadata probe is abstracted as `probe`.
A reference whose resolved name is `undefined` makes `path.join` throw outside
the per-image try, so the whole call aborts (`none`) and the project is
skipped by `loadProjects`. -/
def processProjectImages (probe : Name → Option ImageMeta) :
    List ImageRef → Option (List ImageRecord)
  | [] => some []
  | item :: rest =>
      match refName item with
      | none => none
      | some nm =>
          match probe nm with
          | some m =>
              match processProjectImages probe rest with
              | some records =>
                  some (⟨nm, m.width, m.height, m.format, refBorder item⟩ :: records)
              | none => none
          | none => processProjectImages probe rest

/-- `item.endsWith(suffix)`. -/
def nameEndsWith (s suffix : Name) : Bool := List.isSuffixOf suffix s

/-- The gallery-page content filter (line 251):
`item.endsWith('.jpg') || item.endsWith('.png') || item.endsWith('.jpeg')`,
an exact, case-sensitive suffix test. -/
def galleryIsImage (item : Name) : Bool :=
  nameEndsWith item ".jpg".data || nameEndsWith item ".png".data ||
    nameEndsWith item ".jpeg".data

/-- JS `String.prototype.toLowerCase`, characterwise. -/
def lowerName (s : Name) : Name := s.map Char.toLower

/-- The info-page image detection `item.match(/\.(jpg|jpeg|png)$/i)`
(lines 322, 399, 455, 481, 485): a case-insensitive suffix test. -/
def infoIsImage (item : Name) : Bool :=
  nameEndsWith (lowerName item) ".jpg".data || nameEndsWith (lowerName item) ".jpeg".data ||
    nameEndsWith (lowerName item) ".png".data

/-- The `'gallery'` branch of `createProjectPage` (lines 250–253): filter
content tokens through the suffix test, resolve each against the processed
images, and drop unresolved ones (`filter(Boolean)`). -/
def galleryContentImages (processedImages : List ImageRecord) (content : List Name) :
    List ImageRecord :=
  (content.filter galleryIsImage).filterMap fun imageName =>
    processedImages.find? fun img => decide (img.name = imageName)

/-- Abstract outcomes of the document writer's text measurement
(`doc.heightOfString` / the height by which `doc.text` advances `doc.y`) for
the text elements of a two-column info page, each at the text-column width
and the font size the render pass selects for it. -/
structure TextHeights where
  titleH : ℚ
  mediumH : ℚ
  yearH : ℚ
  descH : ℚ
  linkH : ℚ
  deriving Repr, DecidableEq

/-- The centering pre-pass of `createTwoColumnInfoPage` (lines 437–474):
fixed `lineSpacing` constants (`title: 44 + 20`, `medium: 14 + 10`,
`year: 14 + 10`, `link: 10 + 15`) plus the measured wrapped height (+20) for
`description`; image tokens are skipped. -/
def twoColumnTextHeight (hasLink : Bool) (hs : TextHeights) (content : List Name) : ℚ :=
  content.foldl
    (fun textHeight item =>
      if infoIsImage item then textHeight
      else if item = "title".data then textHeight + (44 + 20)
      else if item = "medium".data then textHeight + (14 + 10)
      else if item = "year".data then textHeight + (14 + 10)
      else if item = "description".data then textHeight + (hs.descH + 20)
      else if item = "link".data then
        (if hasLink then textHeight + (10 + 15) else textHeight)
      else textHeight)
    0

/-- The total amount by which the render pass of `createTwoColumnInfoPage`
(lines 484–530) advances the vertical cursor over the text elements: each
element's actual rendered height plus its fixed increment (title +20,
medium +10, year +10, description +20, link +15); image tokens are skipped. -/
def twoColumnRenderAdvance (hasLink : Bool) (hs : TextHeights) (content : List Name) : ℚ :=
  content.foldl
    (fun acc item =>
      if infoIsImage item then acc
      else if item = "title".data then acc + (hs.titleH + 20)
      else if item = "medium".data then acc + (hs.mediumH + 10)
      else if item = "year".data then acc + (hs.yearH + 10)
      else if item = "description".data then acc + (hs.descH + 20)
      else if item = "link".data then
        (if hasLink then acc + (hs.linkH + 15) else acc)
      else acc)
    0

/-- A page of an explicit `project.layout.pages` list. -/
inductive LayoutType where
  | info
  | gallery
  | full
  deriving Repr, DecidableEq

/-- One layout instruction: a page type plus ordered content tokens. -/
structure LayoutInstruction where
  type : LayoutType
  content : List Name
  deriving Repr, DecidableEq

/-- A page emitted for a project, at the granularity claims C8 needs. -/
inductive PageSpec where
  | infoDefault
  | layoutPage (page : LayoutInstruction)
  | galleryDefault (imgs : List ImageRecord)
  deriving Repr, DecidableEq

/-- The page-level output stream: emitted pages and `doc.addPage()` breaks. -/
inductive PageCmd where
  | emit (p : PageSpec)
  | brk
  deriving Repr, DecidableEq

/-- The gallery loop of `createDefaultProjectLayout` (lines 234–241):
`for (i = 0; i < images.length; i += 2)` emits `images.slice(i, i + 2)` and a
page break only when `i + 2 < images.length`. -/
def galleryLoop : List ImageRecord → List PageCmd
  | [] => []
  | [a] => [PageCmd.emit (PageSpec.galleryDefault [a])]
  | [a, b] => [PageCmd.emit (PageSpec.galleryDefault [a, b])]
  | a :: b :: rest =>
      PageCmd.emit (PageSpec.galleryDefault [a, b]) :: PageCmd.brk :: galleryLoop rest

/-- The two-per-page batching of the default layout, as a chunking. -/
def chunk2 : List ImageRecord → List (List ImageRecord)
  | [] => []
  | [a] => [[a]]
  | a :: b :: rest => [a, b] :: chunk2 rest

/-- `createDefaultProjectLayout` (lines 228–242): info page, break, then the
gallery loop. -/
def createDefaultProjectLayout (imgs : List ImageRecord) : List PageCmd :=
  PageCmd.emit PageSpec.infoDefault :: PageCmd.brk :: galleryLoop imgs

/-- `createProjectPages` (lines 215–226): with an explicit layout, render each
instruction's page followed by `doc.addPage()` (the final one included);
otherwise the default layout. -/
def createProjectPages (layout : Option (List LayoutInstruction))
    (imgs : List ImageRecord) : List PageCmd :=
  match layout with
  | some pages => pages.flatMap fun p => [PageCmd.emit (PageSpec.layoutPage p), PageCmd.brk]
  | none => createDefaultProjectLayout imgs

/-- Five concrete resolved images, for the 5-image gallery instance. -/
def grid5recs : List ImageRecord :=
  [⟨"a.jpg".data, 1, 1, "jpeg".data, false⟩,
   ⟨"b.jpg".data, 1, 1, "jpeg".data, false⟩,
   ⟨"c.jpg".data, 1, 1, "jpeg".data, false⟩,
   ⟨"d.jpg".data, 1, 1, "jpeg".data, false⟩,
   ⟨"e.jpg".data, 1, 1, "jpeg".data, false⟩]

/-- Every record produced by a successful `processProjectImages` run had a
successful probe. -/
theorem processProjectImages_probe_isSome (probe : Name → Option ImageMeta)
    (items : List ImageRef) (records : List ImageRecord)
    (hrec : processProjectImages probe items = some records) (r : ImageRecord)
    (hr : r ∈ records) : (probe r.name).isSome := by
  revert records
  induction items with
  | nil =>
      intro records hrec hr
      rw [processProjectImages] at hrec
      obtain rfl : ([] : List ImageRecord) = records := Option.some.inj hrec
      simp at hr
  | cons item rest ih =>
      intro records hrec hr
      rw [processProjectImages] at hrec
      rcases hn : refName item with _ | nm
      · simp only [hn] at hrec
        exact absurd hrec (by simp)
      · simp only [hn] at hrec
        rcases hp : probe nm with _ | m
        · simp only [hp] at hrec
          exact ih records hrec hr
        · simp only [hp] at hrec
          rcases hrest : processProjectImages probe rest with _ | recs
          · simp only [hrest] at hrec
            exact absurd hrec (by simp)
          · simp only [hrest, Option.some.injEq] at hrec
            subst hrec
            rcases List.mem_cons.mp hr with h | h
            · subst h
              simp [hp]
            · exact ih recs hrest h

/-- C1: for positive intrinsic dimensions and a positive target box, the
placement rectangle of `addImageToPage` lies inside the box, touches it on at
least one axis, has positive sides, preserves the intrinsic aspect ratio
exactly, and is centered in the box on both axes. -/
theorem fitImage_spec (imgW imgH x y maxW maxH : ℚ)
    (hw : 0 < imgW) (hh : 0 < imgH) (hW : 0 < maxW) (hH : 0 < maxH) :
    ∃ r : Rect, fitImage imgW imgH x y maxW maxH = r ∧
    (x ≤ r.x ∧ y ≤ r.y ∧ r.x + r.w ≤ x + maxW ∧ r.y + r.h ≤ y + maxH ∧
     (r.w = maxW ∨ r.h = maxH) ∧ 0 < r.w ∧ 0 < r.h ∧
     r.w / r.h = imgW / imgH ∧
     r.x - x = (x + maxW) - (r.x + r.w) ∧ r.y - y = (y + maxH) - (r.y + r.h)) := by
  refine ⟨fitImage imgW imgH x y maxW maxH, rfl, ?_⟩
  have hr : 0 < imgW / imgH := div_pos hw hh
  have hw0 : imgW ≠ 0 := ne_of_gt hw
  have hh0 : imgH ≠ 0 := ne_of_gt hh
  have hW0 : maxW ≠ 0 := ne_of_gt hW
  have hH0 : maxH ≠ 0 := ne_of_gt hH
  simp only [fitImage]
  split_ifs with hcase
  · -- height-constrained branch: maxW / ratio > maxH
    have hwle : maxH * (imgW / imgH) < maxW := (lt_div_iff₀ hr).mp hcase
    have hwpos : 0 < maxH * (imgW / imgH) := mul_pos hH hr
    refine ⟨by linarith, by linarith, by linarith, by linarith, Or.inr rfl, hwpos, hH, ?_, by ring, by ring⟩
    rw [mul_div_assoc, mul_comm, div_mul_cancel₀ _ hH0]
  · -- width-constrained branch: maxW / ratio ≤ maxH
    push_neg at hcase
    have hhpos : 0 < maxW / (imgW / imgH) := div_pos hW hr
    refine ⟨by linarith, by linarith, by linarith, by linarith, Or.inl rfl, hW, hhpos, ?_, by ring, by ring⟩
    rw [div_div_eq_mul_div, mul_comm, mul_div_assoc, div_self hW0, mul_one]

/-- Witness for `fitImage_spec`: a 4:3 image in the box (0,0,8,3) is
height-constrained, giving the centered rect (2,0,4,3). -/
theorem fitImage_spec_witness :
    (0:ℚ) < 4 ∧ (0:ℚ) < 3 ∧ (0:ℚ) < 8 ∧ (0:ℚ) < 3 ∧
    (∃ r : Rect, fitImage 4 3 0 0 8 3 = r ∧
     ((0:ℚ) ≤ r.x ∧ (0:ℚ) ≤ r.y ∧ r.x + r.w ≤ 0 + 8 ∧ r.y + r.h ≤ 0 + 3 ∧
      (r.w = 8 ∨ r.h = 3) ∧ 0 < r.w ∧ 0 < r.h ∧
      r.w / r.h = 4 / 3 ∧
      r.x - 0 = (0 + 8) - (r.x + r.w) ∧ r.y - 0 = (0 + 3) - (r.y + r.h))) :=
  ⟨by norm_num, by norm_num, by norm_num, by norm_num,
   fitImage_spec 4 3 0 0 8 3 (by norm_num) (by norm_num) (by norm_num) (by norm_num)⟩

/-- Two cells of a 20pt-gapped row at distinct positions `p < q` are
separated, whatever the (possibly negative) cell size `c`. -/
theorem grid_cells_sep_lt (base c : ℚ) (p q : ℕ) (hpq : p < q) :
    base + (p : ℚ) * (c + 20) + c ≤ base + (q : ℚ) * (c + 20) ∨
    base + (q : ℚ) * (c + 20) + c ≤ base + (p : ℚ) * (c + 20) := by
  have hq : (p : ℚ) + 1 ≤ (q : ℚ) := by exact_mod_cast Nat.succ_le_of_lt hpq
  rcases le_or_lt 0 (c + 20) with hc | hc
  · left
    nlinarith [mul_le_mul_of_nonneg_right hq hc]
  · right
    nlinarith [mul_le_mul_of_nonpos_right hq (le_of_lt hc)]

/-- Axis separation for any two distinct positions. -/
theorem grid_cells_sep (base c : ℚ) (p q : ℕ) (hpq : p ≠ q) :
    base + (p : ℚ) * (c + 20) + c ≤ base + (q : ℚ) * (c + 20) ∨
    base + (q : ℚ) * (c + 20) + c ≤ base + (p : ℚ) * (c + 20) := by
  rcases hpq.lt_or_lt with h | h
  · exact grid_cells_sep_lt base c p q h
  · exact (grid_cells_sep_lt base c q p h).symm

/-- Distinct indices land in distinct grid cells, and the corresponding cell
rectangles are disjoint. -/
theorem gridRect_disjoint (margin availW availH : ℚ) (n i j : ℕ) (hij : i ≠ j) :
    RectDisjoint (gridRect margin availW availH n i) (gridRect margin availW availH n j) := by
  set cols := galleryCols n with hcols
  by_cases hrow : i / cols = j / cols
  · have hcol : i % cols ≠ j % cols := by
      intro hmod
      have hi : cols * (i / cols) + i % cols = i := Nat.div_add_mod i cols
      have hj : cols * (j / cols) + j % cols = j := Nat.div_add_mod j cols
      rw [hrow, hmod] at hi
      exact hij (hi.symm.trans hj)
    have := grid_cells_sep margin
      ((availW - 20 * ((cols : ℚ) - 1)) / cols) (i % cols) (j % cols) hcol
    simp only [gridRect, RectDisjoint, ← hcols]
    rcases this with h | h
    · exact Or.inl (by linarith)
    · exact Or.inr (Or.inl (by linarith))
  · have := grid_cells_sep margin
      ((availH - 20 * ((galleryRows n : ℚ) - 1)) / galleryRows n) (i / cols) (j / cols) hrow
    simp only [gridRect, RectDisjoint, ← hcols]
    rcases this with h | h
    · exact Or.inr (Or.inr (Or.inl (by linarith)))
    · exact Or.inr (Or.inr (Or.inr (by linarith)))

/-- `ceilSqrt` is the integer ceiling of the square root: `n` fits in a
`ceilSqrt n` square, and no smaller square holds it. -/
theorem ceilSqrt_spec (n : ℕ) (hn : 1 ≤ n) :
    n ≤ ceilSqrt n * ceilSqrt n ∧ (ceilSqrt n - 1) * (ceilSqrt n - 1) < n := by
  have hsle : Nat.sqrt n * Nat.sqrt n ≤ n := Nat.sqrt_le n
  have hslt : n < (Nat.sqrt n + 1) * (Nat.sqrt n + 1) := Nat.lt_succ_sqrt n
  have hspos : 1 ≤ Nat.sqrt n := Nat.sqrt_pos.mpr hn
  unfold ceilSqrt
  split_ifs with h
  · refine ⟨le_of_eq h.symm, ?_⟩
    have hlt : (Nat.sqrt n - 1) * (Nat.sqrt n - 1) < Nat.sqrt n * Nat.sqrt n :=
      Nat.mul_self_lt_mul_self (by omega)
    exact lt_of_lt_of_eq hlt h
  · refine ⟨Nat.le_of_lt hslt, ?_⟩
    have hne : Nat.sqrt n * Nat.sqrt n < n := lt_of_le_of_ne hsle h
    simpa using hne

/-- `galleryRows` is the ceiling of `n / cols`: the grid has enough cells,
and dropping a row would not. -/
theorem galleryRows_spec (n : ℕ) (hn : 1 ≤ n) :
    n ≤ galleryCols n * galleryRows n ∧ galleryCols n * (galleryRows n - 1) < n := by
  have hcsq := ceilSqrt_spec n hn
  have hc : 0 < galleryCols n := by
    have h1 := hcsq.1
    have hgc : galleryCols n = ceilSqrt n := rfl
    rw [hgc]
    rcases Nat.eq_zero_or_pos (ceilSqrt n) with h0 | h
    · rw [h0] at h1
      omega
    · exact h
  unfold galleryRows
  set c := galleryCols n with hcdef
  set q := (n + c - 1) / c with hqdef
  have hqm : c * q + (n + c - 1) % c = n + c - 1 := Nat.div_add_mod (n + c - 1) c
  have hm : (n + c - 1) % c < c := Nat.mod_lt _ hc
  constructor
  · have key : ∀ t m : ℕ, t + m = n + c - 1 → m < c → n ≤ t := by omega
    exact key (c * q) _ hqm hm
  · rcases Nat.eq_zero_or_pos q with h0 | hpos
    · rw [h0]
      simpa using hn
    · obtain ⟨k, hk⟩ : ∃ k, q = k + 1 := ⟨q - 1, by omega⟩
      have hq1 : c * (q - 1) + c = c * q := by
        rw [hk]
        simp [Nat.mul_succ]
      have key : ∀ u t m : ℕ, u + c = t → t + m = n + c - 1 → m < c → u < n := by omega
      exact key _ _ _ hq1 hqm hm

/-- C2: for a gallery page with `n ≥ 3` resolved images, the images are
placed row-major into the `ceil(sqrt n) × ceil(n / cols)` grid of
20pt-gapped cells of evenly divided size, the cell rectangles of distinct
indices never overlap, and in the concrete 5-image case over a square
380×380 content area the grid is 3×2 with cell (2,1) (index 5) unoccupied. -/
theorem createGalleryPage_grid_spec :
    (∀ (margin availW availH : ℚ) (images : List ImageRecord), 3 ≤ images.length →
       createGalleryPage margin availW availH images =
         images.enum.map fun p => (p.2, gridRect margin availW availH images.length p.1)) ∧
    (∀ (margin availW availH : ℚ) (n i : ℕ),
       gridRect margin availW availH n i =
         ⟨margin + (i % galleryCols n : ℕ) *
            ((availW - 20 * ((galleryCols n : ℚ) - 1)) / galleryCols n + 20),
          margin + (i / galleryCols n : ℕ) *
            ((availH - 20 * ((galleryRows n : ℚ) - 1)) / galleryRows n + 20),
          (availW - 20 * ((galleryCols n : ℚ) - 1)) / galleryCols n,
          (availH - 20 * ((galleryRows n : ℚ) - 1)) / galleryRows n⟩) ∧
    (∀ n : ℕ, 1 ≤ n →
       n ≤ galleryCols n * galleryCols n ∧
       (galleryCols n - 1) * (galleryCols n - 1) < n ∧
       n ≤ galleryCols n * galleryRows n ∧
       galleryCols n * (galleryRows n - 1) < n) ∧
    (∀ (margin availW availH : ℚ) (n i j : ℕ), i ≠ j →
       RectDisjoint (gridRect margin availW availH n i) (gridRect margin availW availH n j)) ∧
    (galleryCols 5 = 3 ∧ galleryRows 5 = 2 ∧
     createGalleryPage 0 380 380 grid5recs =
       [(⟨"a.jpg".data, 1, 1, "jpeg".data, false⟩, ⟨0, 0, 340/3, 180⟩),
        (⟨"b.jpg".data, 1, 1, "jpeg".data, false⟩, ⟨400/3, 0, 340/3, 180⟩),
        (⟨"c.jpg".data, 1, 1, "jpeg".data, false⟩, ⟨800/3, 0, 340/3, 180⟩),
        (⟨"d.jpg".data, 1, 1, "jpeg".data, false⟩, ⟨0, 200, 340/3, 180⟩),
        (⟨"e.jpg".data, 1, 1, "jpeg".data, false⟩, ⟨400/3, 200, 340/3, 180⟩)] ∧
     gridRect 0 380 380 5 5 = ⟨800/3, 200, 340/3, 180⟩ ∧
     (∀ r ∈ (createGalleryPage 0 380 380 grid5recs).map Prod.snd,
        r ≠ gridRect 0 380 380 5 5)) := by
  have hc : galleryCols 5 = 3 := by norm_num [galleryCols, ceilSqrt]
  have hr : galleryRows 5 = 2 := by rw [galleryRows, hc]
  have hcell : gridRect 0 380 380 5 5 = ⟨800/3, 200, 340/3, 180⟩ := by
    simp only [gridRect, hc, hr]
    norm_num
  have hpage : createGalleryPage 0 380 380 grid5recs =
      [(⟨"a.jpg".data, 1, 1, "jpeg".data, false⟩, ⟨0, 0, 340/3, 180⟩),
       (⟨"b.jpg".data, 1, 1, "jpeg".data, false⟩, ⟨400/3, 0, 340/3, 180⟩),
       (⟨"c.jpg".data, 1, 1, "jpeg".data, false⟩, ⟨800/3, 0, 340/3, 180⟩),
       (⟨"d.jpg".data, 1, 1, "jpeg".data, false⟩, ⟨0, 200, 340/3, 180⟩),
       (⟨"e.jpg".data, 1, 1, "jpeg".data, false⟩, ⟨400/3, 200, 340/3, 180⟩)] := by
    simp only [grid5recs, createGalleryPage, List.enum]
    norm_num [List.enumFrom, gridRect, hc, hr]
  refine ⟨?_, ?_, ?_, ?_, hc, hr, hpage, hcell, ?_⟩
  · intro margin availW availH images h
    rcases images with _ | ⟨a, _ | ⟨b, _ | ⟨c, t⟩⟩⟩
    · simp at h
    · simp at h
    · simp at h
    · rfl
  · intro margin availW availH n i
    rfl
  · intro n hn
    exact ⟨(ceilSqrt_spec n hn).1, (ceilSqrt_spec n hn).2,
      (galleryRows_spec n hn).1, (galleryRows_spec n hn).2⟩
  · intro margin availW availH n i j hij
    exact gridRect_disjoint margin availW availH n i j hij
  · rw [hpage, hcell]
    intro r hr
    fin_cases hr <;> norm_num [Rect.mk.injEq]

/-- Witness for `createGalleryPage_grid_spec`: its conditional parts applied
to the concrete 5-image gallery. -/
theorem createGalleryPage_grid_spec_witness :
    (3 ≤ grid5recs.length ∧
     createGalleryPage 1 500 400 grid5recs =
       grid5recs.enum.map fun p => (p.2, gridRect 1 500 400 grid5recs.length p.1)) ∧
    ((1 : ℕ) ≤ 5 ∧ 5 ≤ galleryCols 5 * galleryCols 5 ∧
     (galleryCols 5 - 1) * (galleryCols 5 - 1) < 5 ∧
     5 ≤ galleryCols 5 * galleryRows 5 ∧ galleryCols 5 * (galleryRows 5 - 1) < 5) ∧
    ((0 : ℕ) ≠ 4 ∧ RectDisjoint (gridRect 1 500 400 5 0) (gridRect 1 500 400 5 4)) ∧
    (⟨0, 0, 340/3, 180⟩ : Rect) ≠ gridRect 0 380 380 5 5 :=
  ⟨⟨by decide, createGalleryPage_grid_spec.1 1 500 400 grid5recs (by decide)⟩,
   ⟨by decide, createGalleryPage_grid_spec.2.2.1 5 (by decide)⟩,
   ⟨by decide, createGalleryPage_grid_spec.2.2.2.1 1 500 400 5 0 4 (by decide)⟩,
   createGalleryPage_grid_spec.2.2.2.2.2.2.2.2 ⟨0, 0, 340/3, 180⟩
     (by rw [createGalleryPage_grid_spec.2.2.2.2.2.2.1]; simp)⟩

/-- C3: a gallery page with exactly two resolved images always stacks them
vertically — both boxes start at `x = margin` with the full available width,
each is `(availableHeight - 20) / 2` tall, and the second sits 20pt below
the first — regardless of either image's dimensions and of the page size. -/
theorem createGalleryPage_two_spec (a b : ImageRecord) (margin availW availH : ℚ) :
    ∃ r1 r2 : Rect,
      createGalleryPage margin availW availH [a, b] = [(a, r1), (b, r2)] ∧
      r1.x = margin ∧ r2.x = margin ∧ r1.w = availW ∧ r2.w = availW ∧
      r1.h = (availH - 20) / 2 ∧ r2.h = (availH - 20) / 2 ∧
      r1.y = margin ∧ r2.y = r1.y + r1.h + 20 :=
  ⟨⟨margin, margin, availW, (availH - 20) / 2⟩,
   ⟨margin, margin + (availH - 20) / 2 + 20, availW, (availH - 20) / 2⟩,
   rfl, rfl, rfl, rfl, rfl, rfl, rfl, rfl, rfl⟩

/-- C4 (code slip): on a two-column info page with content
`[title, description, image]`, the centering pre-pass (which charges the
hardcoded `lineSpacing.title = 44 + 20` for the title, despite the render
pass drawing the title at font size 24) differs from the render pass's
actual cursor advance (actual title height + 20) by exactly
`44 - titleHeight`; with a single-line 24pt title of rendered height 28 the
two passes disagree, so the text block is not centered where the render
pass actually puts it. -/
theorem twoColumn_prepass_mismatch :
    (∀ hs : TextHeights,
       twoColumnTextHeight false hs ["title".data, "description".data, "photo.jpg".data] -
         twoColumnRenderAdvance false hs ["title".data, "description".data, "photo.jpg".data] =
       44 - hs.titleH) ∧
    twoColumnTextHeight false ⟨28, 13, 13, 100, 10⟩
        ["title".data, "description".data, "photo.jpg".data] ≠
      twoColumnRenderAdvance false ⟨28, 13, 13, 100, 10⟩
        ["title".data, "description".data, "photo.jpg".data] := by
  have d1 : infoIsImage "title".data = false := by decide
  have d2 : infoIsImage "description".data = false := by decide
  have d3 : infoIsImage "photo.jpg".data = true := by decide
  have n1 : ¬(("description".data : Name) = "title".data) := by decide
  have n2 : ¬(("description".data : Name) = "medium".data) := by decide
  have n3 : ¬(("description".data : Name) = "year".data) := by decide
  have hgen : ∀ hs : TextHeights,
      twoColumnTextHeight false hs ["title".data, "description".data, "photo.jpg".data] -
        twoColumnRenderAdvance false hs ["title".data, "description".data, "photo.jpg".data] =
      44 - hs.titleH := by
    intro hs
    simp [twoColumnTextHeight, twoColumnRenderAdvance, d1, d2, d3, n1, n2, n3]
  refine ⟨hgen, ?_⟩
  intro h
  have h2 := hgen ⟨28, 13, 13, 100, 10⟩
  rw [h, sub_self] at h2
  norm_num at h2

/-- C5: a border rectangle is stroked around an image's placement box iff the
per-image border flag is set or the global `imageBorder` policy is enabled;
a per-image `border: true` forces a border even with the global policy
disabled while untouched siblings get none, and nothing can suppress the
border once the global policy is enabled. -/
theorem addImageToPage_border_spec :
    (∀ (cfg : Config) (image : ImageRecord) (x y maxW maxH : ℚ),
       (DrawOp.borderRect (fitImage image.width image.height x y maxW maxH) ∈
          addImageToPage cfg image x y maxW maxH) ↔
       (image.border = true ∨ ∃ bc, cfg.imageBorder = some bc ∧ bc.enabled = true)) ∧
    (∀ (cfg : Config) (image : ImageRecord) (x y maxW maxH : ℚ) (bc : BorderConfig),
       cfg.imageBorder = some bc → bc.enabled = true →
       DrawOp.borderRect (fitImage image.width image.height x y maxW maxH) ∈
         addImageToPage cfg image x y maxW maxH) ∧
    (processProjectImages (fun _ => some ⟨4, 3, "jpeg".data⟩)
       [ImageRef.obj (some "a.jpg".data) none (some true), ImageRef.str "b.jpg".data] =
     some [⟨"a.jpg".data, 4, 3, "jpeg".data, true⟩,
           ⟨"b.jpg".data, 4, 3, "jpeg".data, false⟩]) ∧
    (addImageToPage ⟨none, none, some ⟨false, none, none⟩⟩
       ⟨"a.jpg".data, 4, 3, "jpeg".data, true⟩ 0 0 8 3 =
     [DrawOp.image (fitImage 4 3 0 0 8 3), DrawOp.borderRect (fitImage 4 3 0 0 8 3)]) ∧
    (addImageToPage ⟨none, none, some ⟨false, none, none⟩⟩
       ⟨"b.jpg".data, 4, 3, "jpeg".data, false⟩ 0 0 8 3 =
     [DrawOp.image (fitImage 4 3 0 0 8 3)]) := by
  have hmem : ∀ (cfg : Config) (image : ImageRecord) (x y maxW maxH : ℚ),
      (DrawOp.borderRect (fitImage image.width image.height x y maxW maxH) ∈
        addImageToPage cfg image x y maxW maxH) ↔
      shouldDrawBorder image.border cfg.imageBorder = true := by
    intro cfg image x y maxW maxH
    simp only [addImageToPage]
    split_ifs with h
    · simp [h]
    · simp [h]
  refine ⟨?_, ?_, rfl, rfl, rfl⟩
  · intro cfg image x y maxW maxH
    rw [hmem]
    rcases hib : cfg.imageBorder with _ | bc
    · simp [shouldDrawBorder, hib]
    · simp [shouldDrawBorder, hib]
  · intro cfg image x y maxW maxH bc hib hen
    rw [hmem]
    simp [shouldDrawBorder, hib, hen]

/-- Witness for `addImageToPage_border_spec`: with the global policy
enabled, an image whose own flag is false still gets a border. -/
theorem addImageToPage_border_spec_witness :
    (⟨none, none, some ⟨true, none, none⟩⟩ : Config).imageBorder = some ⟨true, none, none⟩ ∧
    (⟨true, none, none⟩ : BorderConfig).enabled = true ∧
    DrawOp.borderRect (fitImage 4 3 0 0 8 3) ∈
      addImageToPage ⟨none, none, some ⟨true, none, none⟩⟩
        ⟨"b.jpg".data, 4, 3, "jpeg".data, false⟩ 0 0 8 3 :=
  ⟨rfl, rfl,
   addImageToPage_border_spec.2.1 ⟨none, none, some ⟨true, none, none⟩⟩
     ⟨"b.jpg".data, 4, 3, "jpeg".data, false⟩ 0 0 8 3 ⟨true, none, none⟩ rfl rfl⟩

/-- C6 fails as stated: the claim (and spec §4.1) says an object token's name
is "taken from its name field or, when absent, its legacy file field", but JS
`imageItem.name || imageItem.file` also falls through on a *present empty*
name string: `{name: "", file: "x.jpg"}` resolves to `x.jpg`, not `""`, even
though its name field is present.  Concretely, with a total probe the
produced record is named `x.jpg`, which differs from the name field's value
`""`. -/
theorem processProjectImages_emptyName_counterexample :
    processProjectImages (fun _ => some ⟨4, 3, "jpeg".data⟩)
      [ImageRef.obj (some []) (some "x.jpg".data) none] =
      some [⟨"x.jpg".data, 4, 3, "jpeg".data, false⟩] ∧
    ("x.jpg".data : Name) ≠ [] ∧
    refName (ImageRef.obj (some []) (some "x.jpg".data) none) = some "x.jpg".data :=
  ⟨rfl, by decide, rfl⟩

/-- C6 (amended): when every reference resolves to a defined name and every
probe succeeds, `processProjectImages` yields one record per input reference,
in input order (so duplicates stay separate): a bare string token gives
`{name: token, border: false}`; an object token takes its `name` field when
that is a nonempty string, otherwise falls through to its legacy `file`
field (JS `||` falsiness), and its border from the `border` field; an object
resolving to no name at all (`undefined`) aborts the whole call — the code
throws at `path.join` and the project is skipped. -/
theorem processProjectImages_spec :
    (∀ (meta : Name → ImageMeta) (items : List ImageRef),
       (∀ item ∈ items, (refName item).isSome) →
       processProjectImages (fun nm => some (meta nm)) items =
         some (items.map fun it =>
           ⟨(refName it).getD [], (meta ((refName it).getD [])).width,
            (meta ((refName it).getD [])).height, (meta ((refName it).getD [])).format,
            refBorder it⟩)) ∧
    (∀ (meta : Name → ImageMeta) (items : List ImageRef),
       (∀ item ∈ items, (refName item).isSome) →
       ∃ records, processProjectImages (fun nm => some (meta nm)) items = some records ∧
         records.length = items.length) ∧
    (∀ t : Name, refName (ImageRef.str t) = some t ∧ refBorder (ImageRef.str t) = false) ∧
    (∀ (nm : Name), nm ≠ [] → ∀ (f : Option Name) (b : Option Bool),
       refName (ImageRef.obj (some nm) f b) = some nm) ∧
    (∀ (f : Option Name) (b : Option Bool),
       refName (ImageRef.obj (some []) f b) = f ∧ refName (ImageRef.obj none f b) = f) ∧
    (∀ (nm f : Option Name) (b : Bool), refBorder (ImageRef.obj nm f (some b)) = b) ∧
    (∀ (probe : Name → Option ImageMeta) (items : List ImageRef) (item : ImageRef),
       item ∈ items → refName item = none →
       processProjectImages probe items = none) := by
  have hmap : ∀ (meta : Name → ImageMeta) (items : List ImageRef),
      (∀ item ∈ items, (refName item).isSome) →
      processProjectImages (fun nm => some (meta nm)) items =
        some (items.map fun it =>
          ⟨(refName it).getD [], (meta ((refName it).getD [])).width,
           (meta ((refName it).getD [])).height, (meta ((refName it).getD [])).format,
           refBorder it⟩) := by
    intro meta items hs
    induction items with
    | nil => rfl
    | cons item rest ih =>
        rcases hn : refName item with _ | nm
        · exact absurd (hn ▸ hs item (List.mem_cons_self item rest)) (by simp)
        · rw [processProjectImages, hn,
            ih fun it hit => hs it (List.mem_cons_of_mem item hit), List.map_cons, hn]
          rfl
  refine ⟨hmap, ?_, ?_, ?_, fun f b => ⟨rfl, rfl⟩, fun nm f b => rfl, ?_⟩
  · intro meta items hs
    exact ⟨_, hmap meta items hs, List.length_map _ _⟩
  · intro t
    exact ⟨rfl, rfl⟩
  · intro nm hnm f b
    simp [refName, jsStrOr, hnm]
  · intro probe items item hmem hnone
    induction items with
    | nil => simp at hmem
    | cons hd rest ih =>
        rcases List.mem_cons.mp hmem with h | h
        · subst h
          rw [processProjectImages, hnone]
        · rw [processProjectImages]
          rcases hn : refName hd with _ | nm
          · simp only [hn]
          · simp only [hn]
            rcases hp : probe nm with _ | m
            · simp only [hp]
              exact ih h
            · simp only [hp, ih h]

/-- Witness for `processProjectImages_spec`: the map characterization on a
concrete mixed list (string, empty-name object, named object), the
nonempty-name precedence, and the `undefined`-name abort. -/
theorem processProjectImages_spec_witness :
    ((∀ item ∈ [ImageRef.str "a.jpg".data,
                ImageRef.obj (some []) (some "x.jpg".data) none,
                ImageRef.obj (some "b.jpg".data) none (some true)],
        (refName item).isSome) ∧
     processProjectImages (fun _ => some (⟨4, 3, "jpeg".data⟩ : ImageMeta))
       [ImageRef.str "a.jpg".data,
        ImageRef.obj (some []) (some "x.jpg".data) none,
        ImageRef.obj (some "b.jpg".data) none (some true)] =
       some ([ImageRef.str "a.jpg".data,
              ImageRef.obj (some []) (some "x.jpg".data) none,
              ImageRef.obj (some "b.jpg".data) none (some true)].map fun it =>
         ⟨(refName it).getD [],
          ((fun _ => (⟨4, 3, "jpeg".data⟩ : ImageMeta)) ((refName it).getD [])).width,
          ((fun _ => (⟨4, 3, "jpeg".data⟩ : ImageMeta)) ((refName it).getD [])).height,
          ((fun _ => (⟨4, 3, "jpeg".data⟩ : ImageMeta)) ((refName it).getD [])).format,
          refBorder it⟩)) ∧
    (("b.jpg".data : Name) ≠ [] ∧
     refName (ImageRef.obj (some "b.jpg".data) none (some true)) = some "b.jpg".data) ∧
    (ImageRef.obj none none none ∈ [ImageRef.obj none none none] ∧
     refName (ImageRef.obj none none none) = none ∧
     processProjectImages (fun _ => some (⟨4, 3, "jpeg".data⟩ : ImageMeta))
       [ImageRef.obj none none none] = none) :=
  ⟨⟨by decide,
    processProjectImages_spec.1 (fun _ => ⟨4, 3, "jpeg".data⟩)
      [ImageRef.str "a.jpg".data,
       ImageRef.obj (some []) (some "x.jpg".data) none,
       ImageRef.obj (some "b.jpg".data) none (some true)] (by decide)⟩,
   ⟨by decide,
    processProjectImages_spec.2.2.2.1 "b.jpg".data (by decide) none (some true)⟩,
   ⟨by decide, rfl,
    processProjectImages_spec.2.2.2.2.2.2 (fun _ => some ⟨4, 3, "jpeg".data⟩)
      [ImageRef.obj none none none] (ImageRef.obj none none none)
      (by decide) rfl⟩⟩

/-- C7: a `full` layout instruction whose first content token matches no
record in the image set — in particular one whose file failed the probe and
was dropped by `processProjectImages` — renders zero draw instructions and
raises no error (the function totally returns the empty instruction list). -/
theorem createProjectPageFull_missing_spec :
    (∀ (cfg : Config) (pw ph : ℚ) (images : List ImageRecord) (t : Name) (rest : List Name),
       (∀ img ∈ images, img.name ≠ t) →
       createProjectPageFull cfg pw ph images (t :: rest) = []) ∧
    (∀ (probe : Name → Option ImageMeta) (items : List ImageRef)
       (records : List ImageRecord) (t : Name) (rest : List Name)
       (cfg : Config) (pw ph : ℚ),
       probe t = none →
       processProjectImages probe items = some records →
       createProjectPageFull cfg pw ph records (t :: rest) = []) := by
  have h1 : ∀ (cfg : Config) (pw ph : ℚ) (images : List ImageRecord) (t : Name)
      (rest : List Name), (∀ img ∈ images, img.name ≠ t) →
      createProjectPageFull cfg pw ph images (t :: rest) = [] := by
    intro cfg pw ph images t rest h
    have hfind : images.find? (fun img => decide (img.name = t)) = none := by
      rw [List.find?_eq_none]
      intro img hmem
      simp [h img hmem]
    simp only [createProjectPageFull, hfind]
  refine ⟨h1, ?_⟩
  intro probe items records t rest cfg pw ph hprobe hrec
  refine h1 cfg pw ph records t rest ?_
  intro img hmem heq
  have hsome := processProjectImages_probe_isSome probe items records hrec img hmem
  rw [heq, hprobe] at hsome
  simp at hsome

/-- Witness for `createProjectPageFull_missing_spec`: a probe that only knows
`a.jpg` drops `missing.jpg`, and the `full` page pointing at it emits
nothing. -/
theorem createProjectPageFull_missing_spec_witness :
    (fun nm => if nm = "a.jpg".data then some (⟨4, 3, "jpeg".data⟩ : ImageMeta) else none)
      "missing.jpg".data = none ∧
    processProjectImages
      (fun nm => if nm = "a.jpg".data then some (⟨4, 3, "jpeg".data⟩ : ImageMeta) else none)
      [ImageRef.str "a.jpg".data, ImageRef.str "missing.jpg".data] =
      some [⟨"a.jpg".data, 4, 3, "jpeg".data, false⟩] ∧
    createProjectPageFull ⟨none, none, none⟩ 100 100
      [⟨"a.jpg".data, 4, 3, "jpeg".data, false⟩] ["missing.jpg".data] = [] :=
  ⟨by decide, rfl,
   createProjectPageFull_missing_spec.2
     (fun nm => if nm = "a.jpg".data then some (⟨4, 3, "jpeg".data⟩ : ImageMeta) else none)
     [ImageRef.str "a.jpg".data, ImageRef.str "missing.jpg".data]
     [⟨"a.jpg".data, 4, 3, "jpeg".data, false⟩]
     "missing.jpg".data [] ⟨none, none, none⟩ 100 100 (by decide) rfl⟩

/-- A nonempty image list chunks into a nonempty page list. -/
theorem chunk2_ne_nil (l : List ImageRecord) (h : l ≠ []) : chunk2 l ≠ [] := by
  rcases l with _ | ⟨a, _ | ⟨b, r⟩⟩
  · exact absurd rfl h
  · simp [chunk2]
  · simp [chunk2]

/-- The gallery loop emits exactly the two-image chunks, separated (not
terminated) by page breaks. -/
theorem galleryLoop_eq_intersperse (l : List ImageRecord) :
    galleryLoop l =
      List.intersperse PageCmd.brk
        ((chunk2 l).map fun c => PageCmd.emit (PageSpec.galleryDefault c)) := by
  induction l using galleryLoop.induct with
  | case1 => rfl
  | case2 a => rfl
  | case3 a b => rfl
  | case4 a b rest hne ih =>
      have h4 : galleryLoop (a :: b :: rest) =
          PageCmd.emit (PageSpec.galleryDefault [a, b]) :: PageCmd.brk :: galleryLoop rest := by
        rcases rest with _ | ⟨r1, rt⟩
        · exact absurd rfl hne
        · rfl
      rcases hcr : chunk2 rest with _ | ⟨c1, cs⟩
      · exact absurd hcr (chunk2_ne_nil rest hne)
      · rw [h4, chunk2, List.map_cons, hcr, List.map_cons,
          List.intersperse_cons_cons, ih, hcr, List.map_cons]

/-- Chunks concatenate back to the original image list. -/
theorem chunk2_flatten (l : List ImageRecord) : (chunk2 l).flatten = l := by
  induction l using chunk2.induct with
  | case1 => rfl
  | case2 a => rfl
  | case3 a b rest ih => simp [chunk2, ih]

/-- Every chunk holds two images, or one. -/
theorem chunk2_length (l : List ImageRecord) :
    ∀ c ∈ chunk2 l, c.length = 2 ∨ c.length = 1 := by
  induction l using chunk2.induct with
  | case1 => intro c hc; simp [chunk2] at hc
  | case2 a =>
      intro c hc
      simp [chunk2] at hc
      simp [hc]
  | case3 a b rest ih =>
      intro c hc
      rcases List.mem_cons.mp hc with h | h
      · simp [h]
      · exact ih c h

/-- With an odd image count, the final chunk holds a single image. -/
theorem chunk2_last_odd (l : List ImageRecord) (h : l.length % 2 = 1) :
    ∃ a, (chunk2 l).getLast? = some [a] := by
  induction l using chunk2.induct with
  | case1 => simp at h
  | case2 a => exact ⟨a, rfl⟩
  | case3 a b rest ih =>
      have hrest : rest.length % 2 = 1 := by
        simp [chunk2, List.length_cons] at h ⊢
        omega
      have hne : rest ≠ [] := by
        intro h0
        rw [h0] at hrest
        simp at hrest
      obtain ⟨x, hx⟩ := ih hrest
      refine ⟨x, ?_⟩
      rcases hcr : chunk2 rest with _ | ⟨c1, cs⟩
      · exact absurd hcr (chunk2_ne_nil rest hne)
      · rw [chunk2, hcr, List.getLast?_cons_cons, ← hcr, hx]

/-- The gallery loop of a nonempty image list ends with an emitted gallery
page, never with a page break. -/
theorem galleryLoop_getLast (l : List ImageRecord) (h : l ≠ []) :
    ∃ c, (galleryLoop l).getLast? = some (PageCmd.emit (PageSpec.galleryDefault c)) := by
  induction l using galleryLoop.induct with
  | case1 => exact absurd rfl h
  | case2 a => exact ⟨[a], rfl⟩
  | case3 a b => exact ⟨[a, b], rfl⟩
  | case4 a b rest hne ih =>
      obtain ⟨c, hc⟩ := ih hne
      refine ⟨c, ?_⟩
      have h4 : galleryLoop (a :: b :: rest) =
          PageCmd.emit (PageSpec.galleryDefault [a, b]) :: PageCmd.brk :: galleryLoop rest := by
        rcases rest with _ | ⟨r1, rt⟩
        · exact absurd rfl hne
        · rfl
      rw [h4]
      rcases hgl : galleryLoop rest with _ | ⟨g1, gs⟩
      · exfalso
        rcases rest with _ | ⟨r1, _ | ⟨r2, rt⟩⟩
        · exact hne rfl
        · simp [galleryLoop] at hgl
        · rcases rt with _ | ⟨r3, rt'⟩
          · simp [galleryLoop] at hgl
          · simp [galleryLoop] at hgl
      · rw [List.getLast?_cons_cons, List.getLast?_cons_cons, ← hgl, hc]

/-- C8: with an explicit layout, every instruction's page is followed by a
page break — the final one included; with no layout, the output is one info
page, a break, then the two-per-page gallery batches in original order
(odd remainder on a final single-image page), with breaks between
consecutive gallery pages but none after the last. -/
theorem createProjectPages_spec :
    (∀ (instrs : List LayoutInstruction) (imgs : List ImageRecord),
       createProjectPages (some instrs) imgs =
         instrs.flatMap fun p => [PageCmd.emit (PageSpec.layoutPage p), PageCmd.brk]) ∧
    (∀ (instrs : List LayoutInstruction) (imgs : List ImageRecord), instrs ≠ [] →
       (createProjectPages (some instrs) imgs).getLast? = some PageCmd.brk) ∧
    (∀ imgs : List ImageRecord,
       createProjectPages none imgs =
         PageCmd.emit PageSpec.infoDefault :: PageCmd.brk ::
           List.intersperse PageCmd.brk
             ((chunk2 imgs).map fun c => PageCmd.emit (PageSpec.galleryDefault c))) ∧
    (∀ imgs : List ImageRecord, (chunk2 imgs).flatten = imgs) ∧
    (∀ (imgs c : List ImageRecord), c ∈ chunk2 imgs → c.length = 2 ∨ c.length = 1) ∧
    (∀ imgs : List ImageRecord, imgs.length % 2 = 1 →
       ∃ a, (chunk2 imgs).getLast? = some [a]) ∧
    (∀ imgs : List ImageRecord, imgs ≠ [] →
       ∃ c, (createProjectPages none imgs).getLast? =
         some (PageCmd.emit (PageSpec.galleryDefault c))) := by
  have hflat_last : ∀ instrs : List LayoutInstruction, instrs ≠ [] →
      (instrs.flatMap fun p => [PageCmd.emit (PageSpec.layoutPage p), PageCmd.brk]).getLast? =
        some PageCmd.brk := by
    intro instrs
    induction instrs with
    | nil => intro h; exact absurd rfl h
    | cons p rest ih =>
        intro h
        rcases rest with _ | ⟨q, rt⟩
        · simp
        · rw [List.flatMap_cons,
            List.getLast?_append_of_ne_nil _ (by rw [List.flatMap_cons]; simp)]
          exact ih (by simp)
  refine ⟨fun _ _ => rfl, ?_, ?_, chunk2_flatten, ?_, chunk2_last_odd, ?_⟩
  · intro instrs imgs h
    exact hflat_last instrs h
  · intro imgs
    rw [createProjectPages, createDefaultProjectLayout, galleryLoop_eq_intersperse]
  · intro imgs c hc
    exact chunk2_length imgs c hc
  · intro imgs h
    obtain ⟨c, hc⟩ := galleryLoop_getLast imgs h
    refine ⟨c, ?_⟩
    rw [createProjectPages, createDefaultProjectLayout]
    rcases hgl : galleryLoop imgs with _ | ⟨g1, gs⟩
    · rw [hgl] at hc
      simp at hc
    · rw [List.getLast?_cons_cons, List.getLast?_cons_cons, ← hgl, hc]

/-- Witness for `createProjectPages_spec`: its conditional parts applied to a
one-instruction layout and to the concrete 5-image default layout. -/
theorem createProjectPages_spec_witness :
    ([(⟨LayoutType.full, ["x.jpg".data]⟩ : LayoutInstruction)] ≠ [] ∧
     (createProjectPages (some [⟨LayoutType.full, ["x.jpg".data]⟩]) []).getLast? =
       some PageCmd.brk) ∧
    (grid5recs.length % 2 = 1 ∧ ∃ a, (chunk2 grid5recs).getLast? = some [a]) ∧
    (grid5recs ≠ [] ∧ ∃ c, (createProjectPages none grid5recs).getLast? =
       some (PageCmd.emit (PageSpec.galleryDefault c))) :=
  ⟨⟨by decide, createProjectPages_spec.2.1 [⟨LayoutType.full, ["x.jpg".data]⟩] [] (by decide)⟩,
   ⟨by decide, createProjectPages_spec.2.2.2.2.2.1 grid5recs (by decide)⟩,
   ⟨by decide, createProjectPages_spec.2.2.2.2.2.2 grid5recs (by decide)⟩⟩

/-- C9 fails as stated: a *negative* margin or dpi is truthy for JS `||`, so
it is used as-is rather than replaced by the default. -/
theorem config_numeric_defaults_counterexample :
    configMargin ⟨some (-5), none, none⟩ = -5 ∧ ¬((-5 : ℚ) = 30) ∧
    configDpi ⟨none, some (-150), none⟩ = -150 ∧ ¬((-150 : ℚ) = 300) := by
  refine ⟨?_, by norm_num, ?_, by norm_num⟩
  · norm_num [configMargin, jsNumOr]
  · norm_num [configDpi, jsNumOr]

/-- C9 (amended): a numeric config field (margin, dpi) falls back to its
built-in default exactly when it is absent or zero; any other value —
negative values included — is used as-is by document construction
(`createPDFMargins`) and raster-resolution selection (`targetPixelWidth`). -/
theorem config_numeric_defaults :
    (∀ (dpi : Option ℚ) (ib : Option BorderConfig),
       configMargin ⟨none, dpi, ib⟩ = 30 ∧ configMargin ⟨some 0, dpi, ib⟩ = 30) ∧
    (∀ (x : ℚ), x ≠ 0 → ∀ (dpi : Option ℚ) (ib : Option BorderConfig),
       configMargin ⟨some x, dpi, ib⟩ = x) ∧
    (∀ (m : Option ℚ) (ib : Option BorderConfig),
       configDpi ⟨m, none, ib⟩ = 300 ∧ configDpi ⟨m, some 0, ib⟩ = 300) ∧
    (∀ (x : ℚ), x ≠ 0 → ∀ (m : Option ℚ) (ib : Option BorderConfig),
       configDpi ⟨m, some x, ib⟩ = x) ∧
    (∀ cfg : Config, createPDFMargins cfg =
       (configMargin cfg, configMargin cfg, configMargin cfg, configMargin cfg)) ∧
    (∀ (cfg : Config) (w : ℚ), targetPixelWidth cfg w = w * configDpi cfg / 72) := by
  refine ⟨?_, ?_, ?_, ?_, fun _ => rfl, fun _ _ => rfl⟩
  · intro dpi ib
    exact ⟨rfl, by simp [configMargin, jsNumOr]⟩
  · intro x hx dpi ib
    simp [configMargin, jsNumOr, hx]
  · intro m ib
    exact ⟨rfl, by simp [configDpi, jsNumOr]⟩
  · intro x hx m ib
    simp [configDpi, jsNumOr, hx]

/-- Witness for `config_numeric_defaults`: negative margin and dpi pass
through unchanged. -/
theorem config_numeric_defaults_witness :
    ((-5 : ℚ) ≠ 0 ∧ configMargin ⟨some (-5), none, none⟩ = -5) ∧
    ((-150 : ℚ) ≠ 0 ∧ configDpi ⟨none, some (-150), none⟩ = -150) :=
  ⟨⟨by norm_num, config_numeric_defaults.2.1 (-5) (by norm_num) none none⟩,
   ⟨by norm_num, config_numeric_defaults.2.2.2.1 (-150) (by norm_num) none none⟩⟩

/-- C10: the gallery filter is an exact lowercase suffix test while the
info-page detection lower-cases first (so it equals the gallery test on the
lower-cased token): `PHOTO.JPG` counts as an image on an info page but is
excluded from a gallery page's content. -/
theorem image_suffix_case_spec :
    (∀ s : Name, infoIsImage s = galleryIsImage (lowerName s)) ∧
    galleryIsImage "PHOTO.JPG".data = false ∧
    infoIsImage "PHOTO.JPG".data = true ∧
    galleryIsImage "photo.jpg".data = true ∧
    (∀ processedImages : List ImageRecord,
       galleryContentImages processedImages ["PHOTO.JPG".data] = []) := by
  refine ⟨?_, by decide, by decide, by decide, ?_⟩
  · intro s
    simp only [infoIsImage, galleryIsImage]
    cases h1 : nameEndsWith (lowerName s) ".jpg".data <;>
      cases h2 : nameEndsWith (lowerName s) ".jpeg".data <;>
        cases h3 : nameEndsWith (lowerName s) ".png".data <;> rfl
  · intro processedImages
    have hpj : galleryIsImage "PHOTO.JPG".data = false := by decide
    simp [galleryContentImages, List.filter, hpj]
